import Mathlib

/-!
Verification of the CCTNS Copilot query-processing pipeline.

The TypeScript sources are shallowly embedded here: JavaScript strings become
`List Char`, numbers in the mock data become `Int`, fallible operations
return `Except` or `Option`.  Components that live in the Python backend of
the repository (absent from the frontend sources) are modelled from the
specification and marked as such in their doc comments.
-/

set_option maxRecDepth 10000

/-- JavaScript strings are modelled as lists of characters. -/
abbrev Str := List Char

/-- Embed a Lean string literal into the model. -/
def str (s : String) : Str := s.data

/-- JavaScript whitespace (the common ASCII part of the `\s` class used by
`String.prototype.trim` and the regexes in the sources). -/
def jsIsSpace (c : Char) : Bool :=
  c = ' ' || c = '\t' || c = '\n' || c = '\r' || c.toNat = 11 || c.toNat = 12

/-- ASCII lower-casing, as performed by `String.prototype.toLowerCase` on the
ASCII SQL text handled by the sources. -/
def jsToLower (c : Char) : Char :=
  if 65 ≤ c.toNat ∧ c.toNat ≤ 90 then Char.ofNat (c.toNat + 32) else c

/-- Word characters of the regex class `\w`. -/
def isWordChar (c : Char) : Bool :=
  ('a' ≤ c && c ≤ 'z') || ('A' ≤ c && c ≤ 'Z') || ('0' ≤ c && c ≤ '9') || c = '_'

/-- Left trim: drop leading JavaScript whitespace. -/
def ltrim (s : Str) : Str := s.dropWhile jsIsSpace

/-- Right trim: drop trailing JavaScript whitespace. -/
def rtrim (s : Str) : Str := (s.reverse.dropWhile jsIsSpace).reverse

/-- `String.prototype.trim`. -/
def trim (s : Str) : Str := rtrim (ltrim s)

/-- `String.prototype.startsWith` for the model. -/
def strStartsWith (p s : Str) : Bool := s.take p.length = p

/-- `String.prototype.endsWith` for the model. -/
def strEndsWith (p s : Str) : Bool := s.reverse.take p.length = p.reverse

/-- `String.prototype.includes`: substring search by scanning suffixes. -/
def hasSub (pat : Str) : Str → Bool
  | [] => decide (pat = [])
  | c :: rest => strStartsWith pat (c :: rest) || hasSub pat rest

/-- A cell of a result row: the TypeScript type is `string | number`. -/
inductive Cell where
  | str (s : Str)
  | num (n : Int)
deriving DecidableEq

/-- `QueryResult` from `frontend/types.ts`:
`{ columns: string[]; rows: (string | number)[][]; query: string }`. -/
structure QueryResult where
  columns : List Str
  rows : List (List Cell)
  query : Str
deriving DecidableEq

/-- One record of `MOCK_CRIME_DATA` in the mock database service. -/
structure CrimeRec where
  crime_type : Str
  district : Str
  count : Int
deriving DecidableEq

/-- One record of `MOCK_ARREST_DATA` in the mock database service. -/
structure ArrestRec where
  officer_name : Str
  arrest_date : Str
  fir_description : Str
deriving DecidableEq

/-- One record of `MOCK_FIR_TREND` in the mock database service. -/
structure TrendRec where
  month : Str
  station : Str
  count : Int
deriving DecidableEq

/-- `MOCK_CRIME_DATA` from the mock database service. -/
def MOCK_CRIME_DATA : List CrimeRec :=
  [ ⟨str "Theft", str "Guntur", 120⟩,
    ⟨str "Assault", str "Guntur", 45⟩,
    ⟨str "Burglary", str "Guntur", 78⟩,
    ⟨str "Robbery", str "Guntur", 30⟩,
    ⟨str "Theft", str "Visakhapatnam", 150⟩,
    ⟨str "Assault", str "Visakhapatnam", 60⟩ ]

/-- `MOCK_ARREST_DATA` from the mock database service. -/
def MOCK_ARREST_DATA : List ArrestRec :=
  [ ⟨str "S. Kumar", str "2025-05-15", str "Theft of motorcycle"⟩,
    ⟨str "S. Kumar", str "2025-05-22", str "Shop burglary on Main St."⟩,
    ⟨str "A. Reddy", str "2025-06-01", str "Assault case at market"⟩,
    ⟨str "S. Kumar", str "2025-06-10", str "Chain snatching incident"⟩ ]

/-- `MOCK_FIR_TREND` from the mock database service. -/
def MOCK_FIR_TREND : List TrendRec :=
  [ ⟨str "2024-07", str "Guntur I Town", 55⟩,
    ⟨str "2024-08", str "Guntur I Town", 62⟩,
    ⟨str "2024-09", str "Guntur I Town", 48⟩,
    ⟨str "2024-10", str "Guntur I Town", 70⟩,
    ⟨str "2024-11", str "Guntur I Town", 65⟩,
    ⟨str "2024-12", str "Guntur I Town", 75⟩,
    ⟨str "2025-01", str "Guntur I Town", 80⟩,
    ⟨str "2025-02", str "Guntur I Town", 72⟩,
    ⟨str "2025-03", str "Guntur I Town", 85⟩,
    ⟨str "2025-04", str "Guntur I Town", 90⟩,
    ⟨str "2025-05", str "Guntur I Town", 88⟩,
    ⟨str "2025-06", str "Guntur I Town", 95⟩ ]

/-- `executeQuery` from the mock database service: lower-cases the SQL,
branches on substring matches, and resolves a `QueryResult` built from the
synthetic data.  The promise wrapper and the simulated network delay carry no
data and are omitted. -/
def executeQuery (sql : Str) : QueryResult :=
  let lowerSql := sql.map jsToLower
  if hasSub (str "group by") lowerSql && hasSub (str "guntur") lowerSql then
    { columns := [str "Crime Type", str "Total FIRs"],
      rows := (MOCK_CRIME_DATA.filter (fun d => d.district = str "Guntur")).map
        (fun d => [Cell.str d.crime_type, Cell.num d.count]),
      query := sql }
  else if hasSub (str "officer_master") lowerSql && hasSub (str "kumar") lowerSql then
    { columns := [str "Arresting Officer", str "Arrest Date", str "FIR Details"],
      rows := (MOCK_ARREST_DATA.filter (fun d => hasSub (str "Kumar") d.officer_name)).map
        (fun d => [Cell.str d.officer_name, Cell.str d.arrest_date, Cell.str d.fir_description]),
      query := sql }
  else if hasSub (str "fir") lowerSql && hasSub (str "group by") lowerSql
      && hasSub (str "month") lowerSql then
    { columns := [str "Month", str "FIR Count"],
      rows := MOCK_FIR_TREND.map (fun d => [Cell.str d.month, Cell.num d.count]),
      query := sql }
  else
    { columns := [str "Crime Type", str "District", str "Total Count"],
      rows := MOCK_CRIME_DATA.map
        (fun d => [Cell.str d.crime_type, Cell.str d.district, Cell.num d.count]),
      query := sql }

/-- The JSON body of a backend `/process-query` response, as consumed by
`processQuery` in `apiService` (part_005): the success fields declared by
`ProcessedQueryResponse` plus the `detail` field read from error bodies. -/
structure BackendPayload where
  sql : Str
  summary : Str
  result : QueryResult
  error : Option Str
  detail : Option Str
deriving DecidableEq

/-- The parts of a `fetch` response that `processQuery` inspects: the `ok`
flag, the numeric status, and the JSON body (`none` when the body is not
valid JSON, in which case `response.json()` rejects). -/
structure HttpResponse where
  ok : Bool
  status : Nat
  body : Option BackendPayload
deriving DecidableEq

/-- Decimal rendering of a natural number, for the status interpolation. -/
def natToStr (n : Nat) : Str := (Nat.repr n).data

/-- The template literal `Server responded with status N`. -/
def statusMessage (status : Nat) : Str :=
  str "Server responded with status " ++ natToStr status

/-- Stand-in for the message of the SyntaxError thrown by `response.json()`
on an unparseable body; only the fact of rejection matters to the claims. -/
def jsonParseFailMsg : Str := str "Unexpected token in JSON"

/-- `processQuery` from `apiService` (part_005): POSTs the query and then
(1) on a non-ok status throws with the body's `detail` (or a fallback when
the error body is not JSON or `detail` is falsy), (2) on an ok status whose
body is not valid JSON rejects with the JSON parse error, (3) on a truthy
`error` field throws that error, and (4) otherwise returns the parsed
payload unchanged. -/
def processQuery (resp : HttpResponse) : Except Str BackendPayload :=
  if resp.ok = false then
    let errorDetail : Option Str :=
      match resp.body with
      | some p => p.detail
      | none => some (str "Failed to fetch from backend.")
    Except.error (match errorDetail with
      | some d => if d = [] then statusMessage resp.status else d
      | none => statusMessage resp.status)
  else
    match resp.body with
    | none => Except.error jsonParseFailMsg
    | some p =>
      match p.error with
      | some e => if e = [] then Except.ok p else Except.error e
      | none => Except.ok p

deriving instance DecidableEq for Except

/-- An empty `QueryResult`, used to build concrete payloads. -/
def emptyResult : QueryResult := ⟨[], [], []⟩

/-- A well-formed success payload with no error field. -/
def goodPayload : BackendPayload :=
  ⟨str "SELECT 1", str "ok", emptyResult, none, none⟩

/-- An ok response whose body is not valid JSON. -/
def okUnparseableResponse : HttpResponse := ⟨true, 200, none⟩

/-- An ok response carrying the well-formed success payload. -/
def okGoodResponse : HttpResponse := ⟨true, 200, some goodPayload⟩

/-- `typeof cell === 'number'`. -/
def isNumCell : Cell → Bool
  | Cell.num _ => true
  | Cell.str _ => false

/-- `typeof cell === 'string'`. -/
def isStrCell : Cell → Bool
  | Cell.str _ => true
  | Cell.num _ => false

/-- A decimal digit. -/
def isDigitChar (c : Char) : Bool := '0' ≤ c && c ≤ '9'

/-- The chart date regex `^\d{4}-\d{2}-\d{2}$` (YYYY-MM-DD). -/
def matchesIsoDate : Str → Bool
  | [y1, y2, y3, y4, h1, m1, m2, h2, d1, d2] =>
    isDigitChar y1 && isDigitChar y2 && isDigitChar y3 && isDigitChar y4 &&
    h1 = '-' && isDigitChar m1 && isDigitChar m2 && h2 = '-' &&
    isDigitChar d1 && isDigitChar d2
  | _ => false

/-- `typeof cell === 'string' && dateRegex.test(cell)`. -/
def isDateCell : Cell → Bool
  | Cell.str s => matchesIsoDate s
  | Cell.num _ => false

/-- `String(cell)`: a string is itself, a number renders in decimal. -/
def jsStringOfCell : Cell → Str
  | Cell.str s => s
  | Cell.num n => (Int.repr n).data

/-- `String(row[i])` where the index may be out of range: JavaScript yields
`undefined`, which `String` renders as the text `undefined`. -/
def jsStringOfCellU : Option Cell → Str
  | some c => jsStringOfCell c
  | none => str "undefined"

/-- Integer-literal fragment of JavaScript `Number(string)`: the empty or
all-whitespace string is 0, an optionally signed digit run is its value, and
anything else is NaN (`none`).  The float, hex and exponent forms of the
full JavaScript grammar never arise in the embedded data and are omitted. -/
def jsNumberOfStr (s : Str) : Option Int :=
  let t := trim s
  if t = [] then some 0
  else
    match t with
    | '-' :: rest =>
      if rest ≠ [] ∧ rest.all isDigitChar then
        some (-(rest.foldl (fun a c => a * 10 + (c.toNat - 48)) 0 : Nat))
      else none
    | '+' :: rest =>
      if rest ≠ [] ∧ rest.all isDigitChar then
        some ((rest.foldl (fun a c => a * 10 + (c.toNat - 48)) 0 : Nat))
      else none
    | _ =>
      if t.all isDigitChar then
        some ((t.foldl (fun a c => a * 10 + (c.toNat - 48)) 0 : Nat))
      else none

/-- `Number(cell)`. -/
def jsNumberOfCell : Cell → Option Int
  | Cell.num n => some n
  | Cell.str s => jsNumberOfStr s

/-- `Number(row[i])` with a possibly out-of-range index: `Number(undefined)`
is NaN (`none`). -/
def jsNumberOfCellU : Option Cell → Option Int
  | some c => jsNumberOfCell c
  | none => none

/-- `Array.prototype.findIndex` with an index-aware predicate, starting the
index count at `i`; `none` models the return value -1. -/
def findIdxCondFrom (p : Cell → Nat → Bool) : Nat → List Cell → Option Nat
  | _, [] => none
  | i, c :: rest => if p c i then some i else findIdxCondFrom p (i + 1) rest

/-- `Array.prototype.findIndex` with an index-aware predicate. -/
def findIdxCond (p : Cell → Nat → Bool) (l : List Cell) : Option Nat :=
  findIdxCondFrom p 0 l

/-- `firstRow.findIndex(cell => typeof cell === 'number')` in `chartData`. -/
def valueColumnIndex (firstRow : List Cell) : Option Nat :=
  findIdxCond (fun c _ => isNumCell c) firstRow

/-- The label column of chart strategy 1: the first string column other than
the numeric column `nci`; failing that, the first column other than `nci`;
failing that, column 0.  Mirrors the `stringColumnIndex` fallbacks. -/
def labelColumnIndex (firstRow : List Cell) (nci : Nat) : Nat :=
  match findIdxCond (fun c i => isStrCell c && i != nci) firstRow with
  | some j => j
  | none =>
    match findIdxCond (fun _ i => i != nci) firstRow with
    | some j => j
    | none => 0

/-- `dateStr.substring(0, 7)` on the cell at the date column.  In the source
a non-string cell here would raise a TypeError (`substring` is applied to
the cast value); the theorems about this branch therefore carry a
hypothesis that every cell of the date column is a string. -/
def monthOfCell : Option Cell → Str
  | some (Cell.str s) => s.take 7
  | _ => []

/-- One step of the `reduce` aggregation `acc[key] = (acc[key] || 0) + 1`,
on the insertion-ordered entry list that models the JavaScript object. -/
def bumpKey (acc : List (Str × Nat)) (k : Str) : List (Str × Nat) :=
  if acc.any (fun p => p.1 = k) then
    acc.map (fun p => if p.1 = k then (p.1, p.2 + 1) else p)
  else acc ++ [(k, 1)]

/-- The whole `reduce` aggregation: occurrence counts keyed by value, in
first-occurrence order (the key order of `Object.entries`). -/
def tally (ks : List Str) : List (Str × Nat) := ks.foldl bumpKey []

/-- One entry of the chart-ready series: `{ name, value }`.  The value is
`Option Int` because `Number` of a non-numeric string is NaN. -/
structure ChartEntry where
  name : Str
  value : Option Int
deriving DecidableEq

/-- The comparator `(a, b) => a.name.localeCompare(b.name)`, as the
lexicographic order on the names. -/
def entryLE (p q : ChartEntry) : Prop := p.name ≤ q.name

instance : DecidableRel entryLE :=
  fun p q => inferInstanceAs (Decidable (p.name ≤ q.name))

instance : IsTotal ChartEntry entryLE := ⟨fun a b => le_total a.name b.name⟩

instance : IsTrans ChartEntry entryLE := ⟨fun _ _ _ h1 h2 => le_trans h1 h2⟩

/-- Map a tally entry to a chart entry. -/
def entryOfPair (p : Str × Nat) : ChartEntry := ⟨p.1, some (p.2 : Int)⟩

/-- The chart strategy tags named by the specification's `ChartSpec`. -/
inductive ChartStrategy where
  | none
  | categoricalValue
  | dateCount
  | categoryCount
deriving DecidableEq

/-- The `chartData` memo of `DataTable.tsx`: strategy 1 maps every row to
(label-column string, value-column number); strategy 2 counts rows per
year-month of the date column and sorts ascending by name; strategy 3
counts rows per value of the first string column when more than one
distinct value exists; otherwise the chart is empty. -/
def chartData (data : QueryResult) : List ChartEntry :=
  match data.rows with
  | [] => []
  | firstRow :: _ =>
    match valueColumnIndex firstRow with
    | some nci =>
      let sci := labelColumnIndex firstRow nci
      data.rows.map (fun row => ⟨jsStringOfCellU (row.get? sci), jsNumberOfCellU (row.get? nci)⟩)
    | none =>
      match findIdxCond (fun c _ => isDateCell c) firstRow with
      | some dci =>
        let months := data.rows.map (fun row => monthOfCell (row.get? dci))
        List.insertionSort entryLE ((tally months).map entryOfPair)
      | none =>
        match findIdxCond (fun c _ => isStrCell c) firstRow with
        | some lci =>
          let labels := data.rows.map (fun row => jsStringOfCellU (row.get? lci))
          let agg := tally labels
          if 1 < agg.length then agg.map entryOfPair else []
        | none => []

/-- The strategy tag actually taken by `chartData`, read off the same branch
conditions in the same order; this is the observer for the specification's
`ChartSpec.strategy`. -/
def chartStrategy (data : QueryResult) : ChartStrategy :=
  match data.rows with
  | [] => ChartStrategy.none
  | firstRow :: _ =>
    match valueColumnIndex firstRow with
    | some _ => ChartStrategy.categoricalValue
    | none =>
      match findIdxCond (fun c _ => isDateCell c) firstRow with
      | some _ => ChartStrategy.dateCount
      | none =>
        match findIdxCond (fun c _ => isStrCell c) firstRow with
        | some lci =>
          if 1 < (tally (data.rows.map (fun row => jsStringOfCellU (row.get? lci)))).length
          then ChartStrategy.categoryCount
          else ChartStrategy.none
        | none => ChartStrategy.none

/-- A result whose single row is entirely numeric: `chartData` still takes
strategy 1 but no non-numeric label column exists. -/
def allNumericResult : QueryResult :=
  ⟨[str "a", str "b"], [[Cell.num 5, Cell.num 7]], []⟩

/-- The specification's scenario result: columns `[crime_type, count]`,
rows `[("Theft", 120), ("Assault", 45)]`. -/
def scenarioResult : QueryResult :=
  ⟨[str "crime_type", str "count"],
   [[Cell.str (str "Theft"), Cell.num 120],
    [Cell.str (str "Assault"), Cell.num 45]], []⟩

/-- A result with only a date column, out of order, for the date-count
branch. -/
def dateResult : QueryResult :=
  ⟨[str "arrest_date"],
   [[Cell.str (str "2025-06-01")],
    [Cell.str (str "2025-05-15")],
    [Cell.str (str "2025-05-22")]], []⟩

/-- A JSON value of the structured payload grammar: the payload the
generator expects is a flat object whose `sql` and `summary` fields are
strings, so values are strings, integers, booleans or null.  (Nested
objects and floats never occur in the payload contract and are rejected by
this parser where `JSON.parse` would accept them; no theorem below relies
on such inputs.) -/
inductive JVal where
  | jstr (s : Str)
  | jnum (n : Int)
  | jbool (b : Bool)
  | jnull
deriving DecidableEq

/-- Skip JSON whitespace. -/
def skipWs (s : Str) : Str := s.dropWhile jsIsSpace

/-- Parse the body of a JSON string after the opening quote, handling the
escape sequences of the JSON grammar; returns the decoded content and the
remainder after the closing quote. -/
def parseJsonStringBody : Str → Option (Str × Str)
  | [] => none
  | '"' :: rest => some ([], rest)
  | '\\' :: e :: rest =>
    (match e with
     | '"' => some '"'
     | '\\' => some '\\'
     | '/' => some '/'
     | 'n' => some '\n'
     | 't' => some '\t'
     | 'r' => some '\r'
     | 'b' => some (Char.ofNat 8)
     | 'f' => some (Char.ofNat 12)
     | _ => none).bind
      (fun c => (parseJsonStringBody rest).map (fun (p : Str × Str) => (c :: p.1, p.2)))
  | c :: rest =>
    if c = '"' ∨ c = '\\' then none
    else (parseJsonStringBody rest).map (fun (p : Str × Str) => (c :: p.1, p.2))

/-- Parse a run of one or more decimal digits, returning its value. -/
def parseDigitsRun : Str → Option (Nat × Str)
  | s =>
    let digits := s.takeWhile isDigitChar
    if digits = [] then none
    else some (digits.foldl (fun a c => a * 10 + (c.toNat - 48)) 0, s.dropWhile isDigitChar)

/-- Parse one JSON scalar value (string, integer, boolean or null). -/
def parseJVal (s : Str) : Option (JVal × Str) :=
  match skipWs s with
  | '"' :: rest => (parseJsonStringBody rest).map (fun p => (JVal.jstr p.1, p.2))
  | 't' :: 'r' :: 'u' :: 'e' :: r => some (JVal.jbool true, r)
  | 'f' :: 'a' :: 'l' :: 's' :: 'e' :: r => some (JVal.jbool false, r)
  | 'n' :: 'u' :: 'l' :: 'l' :: r => some (JVal.jnull, r)
  | '-' :: rest => (parseDigitsRun rest).map (fun p => (JVal.jnum (-(p.1 : Int)), p.2))
  | other => (parseDigitsRun other).map (fun p => (JVal.jnum (p.1 : Int), p.2))

/-- Parse the members of a JSON object after the opening brace, as
`"key": value` pairs separated by commas and closed by the closing brace.
The fuel bounds the recursion by the input length. -/
def parseMembers : Nat → Str → Option (List (Str × JVal) × Str)
  | 0, _ => none
  | fuel + 1, s =>
    match skipWs s with
    | '"' :: rest =>
      match parseJsonStringBody rest with
      | none => none
      | some (key, r1) =>
        match skipWs r1 with
        | ':' :: r2 =>
          match parseJVal r2 with
          | none => none
          | some (v, r3) =>
            match skipWs r3 with
            | ',' :: r4 => (parseMembers fuel r4).map (fun p => ((key, v) :: p.1, p.2))
            | '}' :: r4 => some ([(key, v)], r4)
            | _ => none
        | _ => none
    | _ => none

/-- `JSON.parse` for a top-level object of the payload grammar: an object
whose members are scalar-valued pairs, with nothing but whitespace after
the closing brace.  Any other input is a parse failure. -/
def parseJsonObject (s : Str) : Option (List (Str × JVal)) :=
  match skipWs s with
  | '{' :: rest =>
    match skipWs rest with
    | '}' :: r2 => if skipWs r2 = [] then some [] else none
    | _ =>
      match parseMembers (s.length + 1) rest with
      | some (ps, r) => if skipWs r = [] then some ps else none
      | none => none
  | _ => none

/-- Property access `obj[key]` on the parsed object; with duplicate keys
`JSON.parse` keeps the last occurrence, hence the reversed search. -/
def objLookup (obj : List (Str × JVal)) (k : Str) : Option JVal :=
  (obj.reverse.find? (fun p => p.1 = k)).map Prod.snd

/-- JavaScript truthiness of a parsed JSON value. -/
def jvalTruthy : JVal → Bool
  | JVal.jstr s => decide (s ≠ [])
  | JVal.jnum n => decide (n ≠ 0)
  | JVal.jbool b => b
  | JVal.jnull => false

/-- `GeneratedSql` of the specification as produced by the generator: the
candidate SQL string and the summary. -/
structure GeneratedSql where
  sql : Str
  summary : Str
deriving DecidableEq

/-- `parsedData.sql.replace(/\\n/g, '\n')`: every literal backslash-n pair
becomes a newline, scanning left to right. -/
def normNewlines : Str → Str
  | '\\' :: 'n' :: rest => '\n' :: normNewlines rest
  | c :: rest => c :: normNewlines rest
  | [] => []

/-- The three backticks of a Markdown code fence. -/
def fence3 : Str := str "```"

/-- The fence-stripping step of `generateSqlAndSummary`: `trim`, then match
the regex `^` + fence + `(\w*)?\s*\n?(.*?)\n?\s*` + fence + `$` (dotall)
and keep the trimmed group 2 when it is non-empty.  The greedy prefix
(language word then whitespace) and the lazy group against the end-anchored
whitespace-then-fence suffix reduce, after the final `trim`, to dropping
the fences and the surrounding whitespace, and never fire when group 2 is
empty (an empty `match[2]` is falsy in the source). -/
def stripFence (t : Str) : Str :=
  let s := trim t
  if strStartsWith fence3 s then
    let r := ((s.drop 3).dropWhile isWordChar).dropWhile jsIsSpace
    if strEndsWith fence3 r then
      let core := trim ((r.reverse.drop 3).reverse)
      if core = [] then s else core
    else s
  else s

/-- The message of the error thrown from the catch block of
`generateSqlAndSummary`; every parse failure, missing field and in-try
TypeError funnels into it. -/
def invalidResponseMsg : Str :=
  str "The AI returned an invalid response. Please try rephrasing your query."

/-- `generateSqlAndSummary` from the Gemini service: trim the model
response, strip an optional code fence, `JSON.parse` the remainder, require
truthy `sql` and `summary` fields, and return the payload with escaped
newlines in the SQL normalized.  Any deviation throws the single
user-facing error (the in-try errors are re-thrown by the catch as the same
message).  The declared return type has string fields, and the model keeps
that restriction: a truthy non-string field is an error here, as `replace`
on a non-string throws into the same catch. -/
def generateSqlAndSummary (responseText : Str) : Except Str GeneratedSql :=
  let jsonStr := stripFence responseText
  match parseJsonObject jsonStr with
  | none => Except.error invalidResponseMsg
  | some obj =>
    match objLookup obj (str "sql"), objLookup obj (str "summary") with
    | some v1, some v2 =>
      if jvalTruthy v1 && jvalTruthy v2 then
        match v1, v2 with
        | JVal.jstr s, JVal.jstr m => Except.ok ⟨normNewlines s, m⟩
        | _, _ => Except.error invalidResponseMsg
      else Except.error invalidResponseMsg
    | _, _ => Except.error invalidResponseMsg

/-- `SafetyVerdict` of the specification: the SQL it judged, the boolean
gate, and a violation reason when rejected. -/
structure SafetyVerdict where
  sql : Str
  allowed : Bool
  reason : Option Str
deriving DecidableEq

/-- The mutating/DDL keyword deny-list of the specification, lower-cased
for the case-insensitive match. -/
def mutatingKeywords : List Str :=
  [str "insert", str "update", str "delete", str "drop", str "alter",
   str "truncate", str "create", str "grant", str "revoke"]

/-- Modelled from the spec: `SqlSafetyValidator` lives in the Python
backend of the repository, which is not among the frontend sources; per
section 4.4 it accepts iff the trimmed text is a single `SELECT` statement
(modelled as the lower-cased text beginning with `select`), no
case-insensitive mutating/DDL keyword occurs, no `;` occurs other than one
optional trailing terminator, and neither `--` nor `/*` occurs.  Any other
input is rejected (deny-by-default). -/
def sqlSafetyValidator (sqlText : Str) : SafetyVerdict :=
  let t := trim sqlText
  let u := t.map jsToLower
  let selectOk := strStartsWith (str "select") u
  let keywordOk := mutatingKeywords.all (fun k => !(hasSub k u))
  let core := if t.getLast? = some ';' then t.dropLast else t
  let semicolonOk := !(decide (';' ∈ core))
  let commentOk := (!(hasSub (str "--") t)) && (!(hasSub (str "/*") t))
  let ok := selectOk && keywordOk && semicolonOk && commentOk
  ⟨sqlText, ok, if ok then none else some (str "unsafe SQL rejected")⟩

/-- The acceptance condition of claim C2, written declaratively: the
lower-cased trimmed text extends `select`, no keyword of the deny-list
occurs as a substring, the semicolon count is zero or a single trailing
one, and no comment marker occurs as a substring. -/
def SafeSqlSpec (sqlText : Str) : Prop :=
  let t := trim sqlText
  let u := t.map jsToLower
  (∃ rest, u = str "select" ++ rest) ∧
  (∀ k ∈ mutatingKeywords, ¬ ∃ a b, u = a ++ k ++ b) ∧
  (t.count ';' = 0 ∨ (t.count ';' = 1 ∧ t.getLast? = some ';')) ∧
  ((¬ ∃ a b, t = a ++ str "--" ++ b) ∧ (¬ ∃ a b, t = a ++ str "/*" ++ b))

/-- The outcome of one pipeline run: generation failed, or the candidate
SQL was rejected by the validator, or the validated SQL was executed. -/
inductive PipelineOutcome where
  | generationFailed (msg : Str)
  | rejected (v : SafetyVerdict)
  | executed (v : SafetyVerdict) (r : QueryResult)
deriving DecidableEq

/-- Modelled from the spec: the backend orchestrator (the `process-query`
handler) is not among the frontend sources; per sections 2 and 4.4 it runs
the generator, passes the candidate SQL through the safety validator as the
sole gate, and executes only on `allowed = true`.  The generator and the
executor are the embedded frontend implementations. -/
def processPipeline (modelResponse : Str) : PipelineOutcome :=
  match generateSqlAndSummary modelResponse with
  | Except.error e => PipelineOutcome.generationFailed e
  | Except.ok p =>
    let v := sqlSafetyValidator p.sql
    if v.allowed then PipelineOutcome.executed v (executeQuery p.sql)
    else PipelineOutcome.rejected v

/-- `ExecutionResult` of the specification's data model: columns, capped
rows, row count and the truncated flag. -/
structure ExecutionResult where
  columns : List Str
  rows : List (List Cell)
  rowCount : Nat
  truncated : Bool
deriving DecidableEq

/-- Modelled from the spec: the fetch layer of the backend `QueryExecutor`
(absent from the frontend sources) fetches at most `cap` rows and sets
`truncated` exactly when the backend holds more. -/
def fetchWithRowCap (cap : Nat) (cols : List Str) (allRows : List (List Cell)) :
    ExecutionResult :=
  let fetched := allRows.take cap
  ⟨cols, fetched, fetched.length, decide (cap < allRows.length)⟩

/-- The scenario's forbidden candidate SQL. -/
def dropTableFir : Str := str "DROP TABLE FIR"

/-- A model response whose payload parses and whose SQL passes the
validator. -/
def goodGenResponse : Str :=
  str "\x7b\"sql\": \"SELECT * FROM FIR\", \"summary\": \"ok\"\x7d"

/-- A model response that is not structured JSON at all. -/
def badGenResponse : Str := str "This is not JSON"

/-- A model response whose payload parses but lacks the `sql` field. -/
def missingSqlResponse : Str := str "\x7b\"summary\": \"ok\"\x7d"

/-- A model response whose payload carries the forbidden DROP statement. -/
def dropGenResponse : Str :=
  str "\x7b\"sql\": \"DROP TABLE FIR\", \"summary\": \"drop it\"\x7d"

-- THEOREMS BELOW

/-- C10 counterexample: `processQuery` also rejects on an ok-status response
whose body fails to parse as JSON, a case in which the status is ok and no
parsed payload (let alone a non-empty `error` field) exists, so the claimed
"rejects exactly when status is not ok or the parsed payload has a
non-empty error field" is false at this input. -/
theorem c10_counterexample :
    okUnparseableResponse.ok = true ∧ okUnparseableResponse.body = none ∧
    processQuery okUnparseableResponse = Except.error jsonParseFailMsg := by
  decide

/-- C10 amended: `processQuery` rejects exactly when the status is not ok,
or the body fails to parse as JSON, or the parsed payload carries a
non-empty `error` field; in every other case it returns the parsed payload
unchanged. -/
theorem c10_amended_reject_conditions (resp : HttpResponse) :
    ((∃ e, processQuery resp = Except.error e) ↔
      (resp.ok = false ∨ resp.body = none ∨
        ∃ p e, resp.body = some p ∧ p.error = some e ∧ e ≠ [])) ∧
    (∀ p, resp.body = some p → resp.ok = true →
      (p.error = none ∨ p.error = some []) → processQuery resp = Except.ok p) := by
  obtain ⟨ok, status, body⟩ := resp
  cases ok
  · constructor
    · simp [processQuery]
    · intro p _ hok
      exact Bool.noConfusion hok
  · cases body
    · constructor
      · simp [processQuery]
      · intro p hp
        exact Option.noConfusion hp
    · rename_i p
      constructor
      · cases he : p.error with
        | none => simp [processQuery, he]
        | some e =>
          by_cases he0 : e = []
          · subst he0
            simp [processQuery, he]
          · simp [processQuery, he, he0]
      · intro p' hp' _ herr
        have hpp : p = p' := by injection hp'
        subst hpp
        rcases herr with h | h <;> simp [processQuery, h]

/-- Witness for C10 at a concrete ok response with a well-formed payload:
the amended theorem yields the payload unchanged. -/
theorem c10_witness : processQuery okGoodResponse = Except.ok goodPayload :=
  (c10_amended_reject_conditions okGoodResponse).2 goodPayload rfl rfl (Or.inl rfl)

/-- Every row list whose boolean length check passes has rows of length `n`. -/
theorem all_rows_len (rows : List (List Cell)) (n : Nat)
    (hall : rows.all (fun r => r.length == n) = true) :
    ∀ r ∈ rows, r.length = n := by
  intro r hr
  have := List.all_eq_true.mp hall r hr
  simpa using this

/-- C9: every row produced by `executeQuery` has as many cells as the result
has column names, on every branch of the mock executor. -/
theorem c9_rows_match_columns (sql : Str) (r : List Cell)
    (h : r ∈ (executeQuery sql).rows) :
    r.length = (executeQuery sql).columns.length := by
  refine all_rows_len (executeQuery sql).rows _ ?_ r h
  simp only [executeQuery]
  split
  · rfl
  split
  · rfl
  split <;> rfl

/-- Witness for C9 at the concrete input of the empty SQL string, which takes
the default branch of the mock executor. -/
theorem c9_witness :
    ([Cell.str (str "Theft"), Cell.str (str "Guntur"), Cell.num 120]).length
      = (executeQuery []).columns.length :=
  c9_rows_match_columns [] _ (by decide)

/-- C5 counterexample: on a result whose single row is entirely numeric the
shaper still takes strategy 1, but the label column it picks (column 1) is
itself numeric and its value is stringified into the label, while no
non-numeric column exists at all; the claim's "first differing non-numeric
column as the label column" is therefore false at this input. -/
theorem c5_counterexample :
    chartStrategy allNumericResult = ChartStrategy.categoricalValue ∧
    labelColumnIndex [Cell.num 5, Cell.num 7] 0 = 1 ∧
    isNumCell (Cell.num 7) = true ∧
    findIdxCond (fun c _ => isStrCell c) [Cell.num 5, Cell.num 7] = none ∧
    chartData allNumericResult = [⟨str "7", some 5⟩] := by
  decide

/-- C5 amended: when some first-row cell is numeric the shaper takes
strategy `categorical-value` with that cell's column as the value column;
the label column is the first differing string column when one exists
(otherwise it falls back to the first differing column, else column 0), and
every row is mapped to (stringified label cell, numeric value cell). -/
theorem c5_amended_categorical_value (cols : List Str) (q0 : Str) (fr : List Cell)
    (rest : List (List Cell)) (i j : Nat)
    (hi : valueColumnIndex fr = some i)
    (hj : findIdxCond (fun c k => isStrCell c && k != i) fr = some j) :
    chartStrategy ⟨cols, fr :: rest, q0⟩ = ChartStrategy.categoricalValue ∧
    labelColumnIndex fr i = j ∧
    chartData ⟨cols, fr :: rest, q0⟩ =
      (fr :: rest).map
        (fun row => ⟨jsStringOfCellU (row.get? j), jsNumberOfCellU (row.get? i)⟩) := by
  have hl : labelColumnIndex fr i = j := by
    unfold labelColumnIndex
    rw [hj]
  refine ⟨?_, hl, ?_⟩
  · simp only [chartStrategy, hi]
  · simp only [chartData, hi, hl]

/-- Witness for C5 at the specification's scenario: columns
`[crime_type, count]` with rows `[("Theft", 120), ("Assault", 45)]` yield
strategy `categorical-value`, label column 0 (`crime_type`), value column 1
(`count`), and the series Theft/120, Assault/45. -/
theorem c5_witness :
    chartStrategy scenarioResult = ChartStrategy.categoricalValue ∧
    labelColumnIndex [Cell.str (str "Theft"), Cell.num 120] 1 = 0 ∧
    chartData scenarioResult = [⟨str "Theft", some 120⟩, ⟨str "Assault", some 45⟩] := by
  have h := c5_amended_categorical_value [str "crime_type", str "count"] []
    [Cell.str (str "Theft"), Cell.num 120] [[Cell.str (str "Assault"), Cell.num 45]] 1 0
    (by decide) (by decide)
  exact ⟨h.1, h.2.1, h.2.2.trans (by decide)⟩

/-- C7: the result shaper is a pure function of the `QueryResult`: equal
inputs give equal `ChartEntry` series.  The source memo reads only its
`data` argument and mutates nothing, which the embedding as a function
makes structural. -/
theorem c7_result_shaper_pure (r1 r2 : QueryResult) (h : r1 = r2) :
    chartData r1 = chartData r2 := by
  rw [h]

/-- Witness for C7 at the scenario result. -/
theorem c7_witness : chartData scenarioResult = chartData scenarioResult :=
  c7_result_shaper_pure scenarioResult scenarioResult rfl

/-- The keys of the aggregation object after one `reduce` step: unchanged
when the key is present, extended by the key otherwise. -/
theorem bumpKey_keys (acc : List (Str × Nat)) (k : Str) :
    (bumpKey acc k).map Prod.fst =
      if k ∈ acc.map Prod.fst then acc.map Prod.fst else acc.map Prod.fst ++ [k] := by
  unfold bumpKey
  by_cases hm : k ∈ acc.map Prod.fst
  · have hb : (acc.any fun p => decide (p.1 = k)) = true := by
      simp only [List.any_eq_true, decide_eq_true_eq]
      obtain ⟨p, hp, hpk⟩ := List.mem_map.mp hm
      exact ⟨p, hp, hpk⟩
    rw [if_pos hb, if_pos hm, List.map_map]
    apply List.map_congr_left
    intro p _
    by_cases h : p.1 = k <;> simp [h]
  · have hb : (acc.any fun p => decide (p.1 = k)) = false := by
      simp only [List.any_eq_false, decide_eq_true_eq]
      intro p hp hpk
      exact hm (List.mem_map.mpr ⟨p, hp, hpk⟩)
    rw [if_neg (by simp [hb]), if_neg hm]
    simp

/-- The invariant carried through the `reduce` aggregation: keys are
distinct, each entry counts the occurrences of its key among the values
consumed so far, and the key set is exactly the set of consumed values. -/
theorem tally_invariant (ks : List Str) :
    ∀ (acc : List (Str × Nat)) (seen : List Str),
    ((acc.map Prod.fst).Nodup) →
    (∀ p ∈ acc, p.2 = seen.count p.1) →
    (∀ k, k ∈ acc.map Prod.fst ↔ k ∈ seen) →
    (((ks.foldl bumpKey acc).map Prod.fst).Nodup ∧
     (∀ p ∈ ks.foldl bumpKey acc, p.2 = (seen ++ ks).count p.1) ∧
     (∀ k, k ∈ (ks.foldl bumpKey acc).map Prod.fst ↔ k ∈ seen ++ ks)) := by
  induction ks with
  | nil =>
    intro acc seen h1 h2 h3
    refine ⟨h1, ?_, ?_⟩
    · simpa using h2
    · simpa using h3
  | cons k ks ih =>
    intro acc seen h1 h2 h3
    have step := ih (bumpKey acc k) (seen ++ [k]) ?_ ?_ ?_
    · have hassoc : seen ++ [k] ++ ks = seen ++ k :: ks := by simp
      rw [hassoc] at step
      simpa only [List.foldl_cons] using step
    · -- keys stay distinct
      rw [bumpKey_keys]
      by_cases hm : k ∈ acc.map Prod.fst
      · rw [if_pos hm]; exact h1
      · rw [if_neg hm]; simp [List.nodup_append, h1, hm]
    · -- counts track the consumed values
      intro p hp
      unfold bumpKey at hp
      by_cases hm : k ∈ acc.map Prod.fst
      · have hb : (acc.any fun q => decide (q.1 = k)) = true := by
          simp only [List.any_eq_true, decide_eq_true_eq]
          obtain ⟨q, hq, hqk⟩ := List.mem_map.mp hm
          exact ⟨q, hq, hqk⟩
        rw [if_pos hb] at hp
        obtain ⟨q, hq, hqe⟩ := List.mem_map.mp hp
        by_cases hqk : q.1 = k
        · have : p = (q.1, q.2 + 1) := by rw [← hqe]; simp [hqk]
          subst this
          simp only [List.count_append, h2 q hq, hqk]
          simp [List.count_cons]
        · have : p = q := by rw [← hqe]; simp [hqk]
          subst this
          simp only [List.count_append, h2 p hq]
          simp [List.count_cons, hqk]
      · have hb : (acc.any fun q => decide (q.1 = k)) = false := by
          simp only [List.any_eq_false, decide_eq_true_eq]
          intro q hq hqk
          exact hm (List.mem_map.mpr ⟨q, hq, hqk⟩)
        rw [if_neg (by simp [hb])] at hp
        rcases List.mem_append.mp hp with hpa | hpk
        · have hne : p.1 ≠ k := fun he =>
            hm (he ▸ List.mem_map.mpr ⟨p, hpa, rfl⟩)
          simp only [List.count_append, h2 p hpa]
          simp [List.count_cons, hne]
        · have hpe : p = (k, 1) := by simpa using hpk
          subst hpe
          have hks : (k : Str) ∉ seen := fun hin => hm ((h3 k).mpr hin)
          simp only [List.count_append]
          simp [List.count_cons, List.count_eq_zero.mpr hks]
    · -- key set equals the consumed set
      intro k'
      rw [bumpKey_keys]
      by_cases hm : k ∈ acc.map Prod.fst
      · rw [if_pos hm]
        constructor
        · intro h
          exact List.mem_append.mpr (Or.inl ((h3 k').mp h))
        · intro h
          rcases List.mem_append.mp h with h | h
          · exact (h3 k').mpr h
          · have : k' = k := by simpa using h
            exact this ▸ hm
      · rw [if_neg hm]
        constructor
        · intro h
          rcases List.mem_append.mp h with h | h
          · exact List.mem_append.mpr (Or.inl ((h3 k').mp h))
          · exact List.mem_append.mpr (Or.inr h)
        · intro h
          rcases List.mem_append.mp h with h | h
          · exact List.mem_append.mpr (Or.inl ((h3 k').mpr h))
          · exact List.mem_append.mpr (Or.inr h)

/-- Keys of the aggregation are distinct. -/
theorem tally_nodup (ks : List Str) : ((tally ks).map Prod.fst).Nodup :=
  (tally_invariant ks [] [] (by simp) (by simp) (by simp)).1

/-- Each aggregation entry counts the occurrences of its key. -/
theorem tally_count (ks : List Str) : ∀ p ∈ tally ks, p.2 = ks.count p.1 := by
  have h := (tally_invariant ks [] [] (by simp) (by simp) (by simp)).2.1
  simpa using h

/-- A key appears in the aggregation iff it appears among the values. -/
theorem tally_mem (ks : List Str) : ∀ k, k ∈ (tally ks).map Prod.fst ↔ k ∈ ks := by
  have h := (tally_invariant ks [] [] (by simp) (by simp) (by simp)).2.2
  simpa using h

/-- C6: when no first-row cell is numeric but some first-row cell matches
the ISO date pattern, the shaper takes strategy `date-count`: the series is
strictly ascending in the year-month name, each entry's value is the number
of rows whose date-column value has that year-month prefix, and every row's
month is represented.  The hypothesis `hstr` records that every date-column
cell is a string, the only case in which the source code does not raise a
TypeError. -/
theorem c6_date_count (cols : List Str) (q0 : Str) (fr : List Cell)
    (rest : List (List Cell)) (d : Nat)
    (hnum : valueColumnIndex fr = none)
    (hd : findIdxCond (fun c _ => isDateCell c) fr = some d)
    (hstr : ∀ row ∈ fr :: rest, ∃ s, row.get? d = some (Cell.str s)) :
    chartStrategy ⟨cols, fr :: rest, q0⟩ = ChartStrategy.dateCount ∧
    List.Pairwise (fun p q => p.name < q.name) (chartData ⟨cols, fr :: rest, q0⟩) ∧
    (∀ e ∈ chartData ⟨cols, fr :: rest, q0⟩,
      e.value =
        some (((fr :: rest).map (fun row => monthOfCell (row.get? d))).count e.name : Int)) ∧
    (∀ row ∈ fr :: rest, ∃ e ∈ chartData ⟨cols, fr :: rest, q0⟩,
      e.name = monthOfCell (row.get? d)) := by
  have hchart : chartData ⟨cols, fr :: rest, q0⟩ =
      List.insertionSort entryLE
        ((tally ((fr :: rest).map (fun row => monthOfCell (row.get? d)))).map entryOfPair) := by
    simp only [chartData, hnum, hd]
  refine ⟨by simp only [chartStrategy, hnum, hd], ?_, ?_, ?_⟩
  · rw [hchart]
    have hsorted : List.Sorted entryLE
        (List.insertionSort entryLE
          ((tally ((fr :: rest).map (fun row => monthOfCell (row.get? d)))).map entryOfPair)) :=
      List.sorted_insertionSort entryLE _
    have hperm := (List.perm_insertionSort entryLE
      ((tally ((fr :: rest).map (fun row => monthOfCell (row.get? d)))).map entryOfPair)).map
        ChartEntry.name
    have hkeys : ((tally ((fr :: rest).map (fun row => monthOfCell (row.get? d)))).map
        entryOfPair).map ChartEntry.name =
        (tally ((fr :: rest).map (fun row => monthOfCell (row.get? d)))).map Prod.fst := by
      rw [List.map_map]; rfl
    have hnodup := hperm.nodup_iff.mpr (hkeys ▸ tally_nodup _)
    have hne := List.pairwise_map.mp hnodup
    exact (hsorted.and hne).imp fun h => lt_of_le_of_ne h.1 h.2
  · intro e he
    rw [hchart, List.mem_insertionSort] at he
    obtain ⟨p, hp, rfl⟩ := List.mem_map.mp he
    have hc := tally_count _ p hp
    simp [entryOfPair, hc]
  · intro row hrow
    have hmem : monthOfCell (row.get? d) ∈
        (fr :: rest).map (fun row => monthOfCell (row.get? d)) :=
      List.mem_map_of_mem _ hrow
    obtain ⟨p, hp, hp1⟩ := List.mem_map.mp ((tally_mem _ _).mpr hmem)
    refine ⟨entryOfPair p, ?_, ?_⟩
    · rw [hchart, List.mem_insertionSort]
      exact List.mem_map_of_mem _ hp
    · simp [entryOfPair, hp1]

/-- Witness for C6 at a concrete result with a single out-of-order date
column: two May rows and one June row aggregate to a series sorted
ascending with the right counts. -/
theorem c6_witness :
    chartStrategy dateResult = ChartStrategy.dateCount ∧
    List.Pairwise (fun p q => p.name < q.name) (chartData dateResult) ∧
    (∀ e ∈ chartData dateResult,
      e.value =
        some ((([[Cell.str (str "2025-06-01")], [Cell.str (str "2025-05-15")],
          [Cell.str (str "2025-05-22")]].map
            (fun row => monthOfCell (row.get? 0))).count e.name : Int))) ∧
    (∀ row ∈ [[Cell.str (str "2025-06-01")], [Cell.str (str "2025-05-15")],
        [Cell.str (str "2025-05-22")]],
      ∃ e ∈ chartData dateResult, e.name = monthOfCell (row.get? 0)) := by
  exact c6_date_count [str "arrest_date"] [] [Cell.str (str "2025-06-01")]
    [[Cell.str (str "2025-05-15")], [Cell.str (str "2025-05-22")]] 0
    (by decide) (by decide)
    (by intro row hr; fin_cases hr <;> exact ⟨_, rfl⟩)

/-- The validator records the SQL it judged. -/
theorem sqlSafetyValidator_sql (x : Str) : (sqlSafetyValidator x).sql = x := rfl

/-- C1: an `executed` pipeline outcome carries a verdict with
`allowed = true` for the very SQL that was executed, and that SQL is never
the forbidden `DROP TABLE FIR`, whatever model response produced it. -/
theorem c1_no_execution_without_allowed_verdict (resp : Str) (v : SafetyVerdict)
    (r : QueryResult) (h : processPipeline resp = PipelineOutcome.executed v r) :
    v.allowed = true ∧ r = executeQuery v.sql ∧ v.sql ≠ dropTableFir := by
  unfold processPipeline at h
  cases hg : generateSqlAndSummary resp with
  | error e =>
    rw [hg] at h
    exact PipelineOutcome.noConfusion h
  | ok p =>
    rw [hg] at h
    have h' : (if (sqlSafetyValidator p.sql).allowed = true
        then PipelineOutcome.executed (sqlSafetyValidator p.sql) (executeQuery p.sql)
        else PipelineOutcome.rejected (sqlSafetyValidator p.sql)) =
        PipelineOutcome.executed v r := h
    by_cases ha : (sqlSafetyValidator p.sql).allowed = true
    · rw [if_pos ha] at h'
      injection h' with hv hr
      subst hv
      subst hr
      refine ⟨ha, by rw [sqlSafetyValidator_sql], ?_⟩
      rw [sqlSafetyValidator_sql]
      intro hdrop
      rw [hdrop] at ha
      have : (sqlSafetyValidator dropTableFir).allowed = false := by decide
      rw [this] at ha
      exact Bool.noConfusion ha
    · rw [if_neg ha] at h'
      exact PipelineOutcome.noConfusion h'

/-- Witness for C1: a well-formed generation response whose SQL passes the
gate reaches execution with an `allowed = true` verdict on the same SQL. -/
theorem c1_witness :
    (sqlSafetyValidator (str "SELECT * FROM FIR")).allowed = true ∧
    executeQuery (str "SELECT * FROM FIR") =
      executeQuery (sqlSafetyValidator (str "SELECT * FROM FIR")).sql ∧
    (sqlSafetyValidator (str "SELECT * FROM FIR")).sql ≠ dropTableFir :=
  c1_no_execution_without_allowed_verdict goodGenResponse
    (sqlSafetyValidator (str "SELECT * FROM FIR"))
    (executeQuery (str "SELECT * FROM FIR")) (by decide)

/-- `startsWith` agrees with the existence of a completing suffix. -/
theorem strStartsWith_iff (p s : Str) : strStartsWith p s = true ↔ ∃ t, s = p ++ t := by
  unfold strStartsWith
  rw [decide_eq_true_iff]
  constructor
  · intro h
    refine ⟨s.drop p.length, ?_⟩
    conv_lhs => rw [← List.take_append_drop p.length s]
    rw [h]
  · rintro ⟨t, rfl⟩
    simp

/-- `includes` agrees with the existence of a substring decomposition. -/
theorem hasSub_iff (pat : Str) (s : Str) :
    hasSub pat s = true ↔ ∃ a b, s = a ++ pat ++ b := by
  induction s with
  | nil =>
    simp only [hasSub, decide_eq_true_iff]
    constructor
    · rintro rfl
      exact ⟨[], [], rfl⟩
    · rintro ⟨a, b, h⟩
      rcases List.append_eq_nil.mp h.symm with ⟨h1, h2⟩
      rcases List.append_eq_nil.mp h1 with ⟨_, h3⟩
      exact h3
  | cons c rest ih =>
    rw [show hasSub pat (c :: rest) = (strStartsWith pat (c :: rest) || hasSub pat rest)
      from rfl]
    rw [Bool.or_eq_true, strStartsWith_iff, ih]
    constructor
    · rintro (⟨t, ht⟩ | ⟨a, b, hr⟩)
      · exact ⟨[], t, by simpa using ht⟩
      · exact ⟨c :: a, b, by simp [hr]⟩
    · rintro ⟨a, b, h⟩
      cases a with
      | nil => exact Or.inl ⟨b, by simpa using h⟩
      | cons x a' =>
        simp only [List.cons_append, List.cons.injEq] at h
        exact Or.inr ⟨a', b, h.2⟩

/-- `includes` is false exactly when no substring decomposition exists. -/
theorem hasSub_eq_false_iff (pat : Str) (s : Str) :
    hasSub pat s = false ↔ ¬ ∃ a b, s = a ++ pat ++ b := by
  constructor
  · intro h hex
    have hh := (hasSub_iff pat s).mpr hex
    rw [h] at hh
    exact Bool.noConfusion hh
  · intro h
    cases hh : hasSub pat s
    · rfl
    · exact absurd ((hasSub_iff pat s).mp hh) h

/-- A list whose last element is `c` splits off that element. -/
theorem getLast?_decomp (t : Str) (c : Char) (h : t.getLast? = some c) :
    ∃ init, t = init ++ [c] := by
  induction t with
  | nil => simp at h
  | cons x xs ih =>
    cases xs with
    | nil =>
      simp only [List.getLast?_singleton, Option.some.injEq] at h
      exact ⟨[], by simp [h]⟩
    | cons y ys =>
      rw [List.getLast?_cons_cons] at h
      obtain ⟨init, hi⟩ := ih h
      exact ⟨x :: init, by simp [hi]⟩

/-- The semicolon check of the validator (no `;` after stripping one
optional trailing `;`) agrees with the declarative count condition. -/
theorem semicolon_mem_iff (t : Str) :
    (';' ∉ (if t.getLast? = some ';' then t.dropLast else t)) ↔
    (t.count ';' = 0 ∨ (t.count ';' = 1 ∧ t.getLast? = some ';')) := by
  by_cases h : t.getLast? = some ';'
  · rw [if_pos h]
    obtain ⟨init, rfl⟩ := getLast?_decomp t ';' h
    rw [List.dropLast_concat]
    constructor
    · intro hnot
      refine Or.inr ⟨?_, h⟩
      have h0 : init.count ';' = 0 := List.count_eq_zero.mpr hnot
      simp [List.count_append, h0]
    · rintro (h0 | ⟨h1, _⟩)
      · exfalso
        simp [List.count_append] at h0
      · have : init.count ';' = 0 := by
          simp [List.count_append] at h1
          exact h1
        exact List.count_eq_zero.mp this
  · rw [if_neg h]
    constructor
    · intro hnot
      exact Or.inl (List.count_eq_zero.mpr hnot)
    · rintro (h0 | ⟨_, hl⟩)
      · exact List.count_eq_zero.mp h0
      · exact absurd hl h

/-- C2: the validator's `allowed` flag is true exactly when the candidate
is a single `SELECT` statement (lower-cased trimmed text extending
`select`), free of the mutating/DDL deny-list as case-insensitive
substrings, free of `;` other than one optional trailing terminator, and
free of the comment markers `--` and `/*`.  The validator is modelled from
the specification because the backend component is not among the frontend
sources. -/
theorem c2_validator_allowed_iff (s : Str) :
    (sqlSafetyValidator s).allowed = true ↔ SafeSqlSpec s := by
  unfold sqlSafetyValidator SafeSqlSpec
  simp only [Bool.and_eq_true, Bool.not_eq_true', List.all_eq_true,
    decide_eq_false_iff_not]
  constructor
  · rintro ⟨⟨⟨h1, h2⟩, h3⟩, h4, h5⟩
    refine ⟨(strStartsWith_iff _ _).mp h1, ?_, (semicolon_mem_iff _).mp h3,
      (hasSub_eq_false_iff _ _).mp h4, (hasSub_eq_false_iff _ _).mp h5⟩
    intro k hk
    exact (hasSub_eq_false_iff _ _).mp (h2 k hk)
  · rintro ⟨h1, h2, h3, h4, h5⟩
    refine ⟨⟨⟨(strStartsWith_iff _ _).mpr h1, ?_⟩, (semicolon_mem_iff _).mpr h3⟩,
      (hasSub_eq_false_iff _ _).mpr h4, (hasSub_eq_false_iff _ _).mpr h5⟩
    intro k hk
    exact (hasSub_eq_false_iff _ _).mpr (h2 k hk)

/-- Witness for C2: the iff instantiated at a concrete accepted SELECT. -/
theorem c2_witness :
    (sqlSafetyValidator (str "SELECT * FROM FIR")).allowed = true ↔
      SafeSqlSpec (str "SELECT * FROM FIR") :=
  c2_validator_allowed_iff (str "SELECT * FROM FIR")

/-- C8: the fetch layer returns exactly the first `cap` rows, never more
than `cap`, and sets `truncated` exactly when rows beyond the returned
ones exist.  Modelled from the specification because the backend
QueryExecutor is not among the frontend sources. -/
theorem c8_row_cap (cap : Nat) (cols : List Str) (allRows : List (List Cell)) :
    (fetchWithRowCap cap cols allRows).rows = allRows.take cap ∧
    (fetchWithRowCap cap cols allRows).rows.length ≤ cap ∧
    ((fetchWithRowCap cap cols allRows).truncated = true ↔
      (fetchWithRowCap cap cols allRows).rows.length < allRows.length) := by
  refine ⟨rfl, ?_, ?_⟩
  · simp [fetchWithRowCap]
  · simp only [fetchWithRowCap, List.length_take, decide_eq_true_iff]
    omega

/-- C3 counterexample: the generator consumes only the primary model
response and fails at once on an unparseable payload; there is no fallback
generation model in the code, so "retries exactly once against a fallback
generation model" is false already at this input, where a single failed
parse yields the final error and the pipeline stops with no verdict and no
result. -/
theorem c3_counterexample :
    generateSqlAndSummary badGenResponse = Except.error invalidResponseMsg ∧
    processPipeline badGenResponse = PipelineOutcome.generationFailed invalidResponseMsg := by
  decide

/-- C3 amended: when the structured payload fails to parse or lacks the
`sql` field, the generator fails immediately with the generation error (no
fallback retry exists), and the pipeline then produces neither a
SafetyVerdict nor an ExecutionResult. -/
theorem c3_amended_immediate_failure (t : Str)
    (h : parseJsonObject (stripFence t) = none ∨
      ∃ obj, parseJsonObject (stripFence t) = some obj ∧
        objLookup obj (str "sql") = none) :
    generateSqlAndSummary t = Except.error invalidResponseMsg ∧
    processPipeline t = PipelineOutcome.generationFailed invalidResponseMsg := by
  have hg : generateSqlAndSummary t = Except.error invalidResponseMsg := by
    rcases h with h | ⟨obj, hobj, hsql⟩
    · simp only [generateSqlAndSummary, h]
    · simp only [generateSqlAndSummary, hobj, hsql]
  refine ⟨hg, ?_⟩
  unfold processPipeline
  rw [hg]

/-- Witness for C3 at the specification's scenario input: a payload missing
the `sql` field. -/
theorem c3_witness :
    generateSqlAndSummary missingSqlResponse = Except.error invalidResponseMsg ∧
    processPipeline missingSqlResponse =
      PipelineOutcome.generationFailed invalidResponseMsg :=
  c3_amended_immediate_failure missingSqlResponse
    (Or.inr ⟨[(str "summary", JVal.jstr (str "ok"))], by decide, by decide⟩)

/-- Dropping a satisfied-prefix twice is the same as dropping it once. -/
theorem dropWhile_idem (p : Char → Bool) (l : Str) :
    (l.dropWhile p).dropWhile p = l.dropWhile p := by
  induction l with
  | nil => rfl
  | cons c rest ih =>
    by_cases h : p c = true
    · simp [List.dropWhile_cons, h, ih]
    · simp [List.dropWhile_cons, h]

/-- `ltrim` keeps a string whose head is not whitespace. -/
theorem ltrim_cons_of_not (c : Char) (l : Str) (h : jsIsSpace c = false) :
    ltrim (c :: l) = c :: l := by
  simp [ltrim, List.dropWhile_cons, h]

/-- `rtrim` keeps a string whose last character is not whitespace. -/
theorem rtrim_of_rev_head (x : Str) (c : Char) (y : Str)
    (hrev : x.reverse = c :: y) (h : jsIsSpace c = false) : rtrim x = x := by
  unfold rtrim
  rw [hrev, List.dropWhile_cons, h]
  simp only [Bool.false_eq_true, if_false]
  rw [← hrev, List.reverse_reverse]

/-- A nonempty trim forces a nonempty left trim. -/
theorem ltrim_ne_nil_of_trim (body : Str) (hne : trim body ≠ []) : ltrim body ≠ [] := by
  intro h0
  apply hne
  unfold trim
  rw [h0]
  rfl

/-- Appending a trailing newline does not change the right trim. -/
theorem rtrim_append_nl (x : Str) : rtrim (x ++ ['\n']) = rtrim x := by
  unfold rtrim
  rw [List.reverse_append]
  rfl

/-- Fence stripping on a base response wrapped in a ```json fence recovers
the trimmed base response: the head fence, language word and following
whitespace are consumed, the tail whitespace and fence are consumed, and
the source's final `trim` of the regex group collapses the rest to
`trim body`. -/
theorem stripFence_wrap (body : Str) (hne : trim body ≠ []) :
    stripFence (str "```json\n" ++ body ++ str "\n```") = trim body := by
  have hlB : body.dropWhile jsIsSpace ≠ [] := ltrim_ne_nil_of_trim body hne
  have hP : str "```json\n" = ['`', '`', '`', 'j', 's', 'o', 'n', '\n'] := rfl
  have hT : str "\n```" = ['\n', '`', '`', '`'] := rfl
  rw [hP, hT]
  have hw : (['`', '`', '`', 'j', 's', 'o', 'n', '\n'] : Str) ++ body ++ ['\n', '`', '`', '`'] =
      '`' :: '`' :: '`' :: 'j' :: 's' :: 'o' :: 'n' :: '\n' ::
        (body ++ ['\n', '`', '`', '`']) := by
    simp
  rw [hw]
  have hrevw : ('`' :: '`' :: '`' :: 'j' :: 's' :: 'o' :: 'n' :: '\n' ::
      (body ++ ['\n', '`', '`', '`']) : Str).reverse =
      '`' :: '`' :: '`' :: '\n' ::
        (body.reverse ++ ['\n', 'n', 'o', 's', 'j', '`', '`', '`']) := by
    simp
  have htrim : trim ('`' :: '`' :: '`' :: 'j' :: 's' :: 'o' :: 'n' :: '\n' ::
      (body ++ ['\n', '`', '`', '`'])) =
      '`' :: '`' :: '`' :: 'j' :: 's' :: 'o' :: 'n' :: '\n' ::
        (body ++ ['\n', '`', '`', '`']) := by
    unfold trim
    rw [ltrim_cons_of_not '`' _ rfl]
    exact rtrim_of_rev_head _ '`' _ hrevw rfl
  simp only [stripFence, htrim]
  have hstart : strStartsWith fence3 ('`' :: '`' :: '`' :: 'j' :: 's' :: 'o' :: 'n' :: '\n' ::
      (body ++ ['\n', '`', '`', '`'])) = true := rfl
  rw [hstart]
  simp only [if_true]
  have hr : ((('`' :: '`' :: '`' :: 'j' :: 's' :: 'o' :: 'n' :: '\n' ::
      (body ++ ['\n', '`', '`', '`']) : Str).drop 3).dropWhile isWordChar).dropWhile jsIsSpace =
      (body ++ ['\n', '`', '`', '`']).dropWhile jsIsSpace := rfl
  rw [hr]
  have hr2 : (body ++ ['\n', '`', '`', '`']).dropWhile jsIsSpace =
      body.dropWhile jsIsSpace ++ ['\n', '`', '`', '`'] := by
    rw [List.dropWhile_append]
    rw [if_neg]
    intro hemp
    exact hlB (List.isEmpty_iff.mp hemp)
  rw [hr2]
  have hrevr : (body.dropWhile jsIsSpace ++ ['\n', '`', '`', '`'] : Str).reverse =
      '`' :: '`' :: '`' :: '\n' :: (body.dropWhile jsIsSpace).reverse := by
    simp
  have hend : strEndsWith fence3 (body.dropWhile jsIsSpace ++ ['\n', '`', '`', '`']) = true := by
    unfold strEndsWith
    rw [hrevr]
    rfl
  rw [hend]
  simp only [if_true]
  rw [hrevr]
  have hcore : trim ((('`' :: '`' :: '`' :: '\n' ::
      (body.dropWhile jsIsSpace).reverse : Str).drop 3).reverse) = trim body := by
    have hd : (('`' :: '`' :: '`' :: '\n' ::
        (body.dropWhile jsIsSpace).reverse : Str).drop 3) =
        '\n' :: (body.dropWhile jsIsSpace).reverse := rfl
    rw [hd, List.reverse_cons, List.reverse_reverse]
    show trim (ltrim body ++ ['\n']) = trim body
    unfold trim
    have h1 : ltrim (ltrim body ++ ['\n']) = ltrim body ++ ['\n'] := by
      unfold ltrim
      rw [List.dropWhile_append]
      rw [if_neg]
      · rw [dropWhile_idem]
      · rw [dropWhile_idem]
        intro hemp
        exact hlB (List.isEmpty_iff.mp hemp)
    rw [h1]
    exact rtrim_append_nl (ltrim body)
  rw [hcore]
  rw [if_neg hne]

/-- C4: a generation response consisting of a well-formed payload wrapped
in a Markdown ```json fence is accepted: the fence is stripped before
parsing, the payload's truthy string fields are read, and every escaped
newline pair in the `sql` string is normalized to a real newline before the
SQL is handed onward. -/
theorem c4_fence_strip_and_newline_normalization (body : Str)
    (obj : List (Str × JVal)) (s m : Str)
    (hne : trim body ≠ [])
    (hobj : parseJsonObject (trim body) = some obj)
    (hs : objLookup obj (str "sql") = some (JVal.jstr s)) (hs0 : s ≠ [])
    (hm : objLookup obj (str "summary") = some (JVal.jstr m)) (hm0 : m ≠ []) :
    generateSqlAndSummary (str "```json\n" ++ body ++ str "\n```") =
      Except.ok ⟨normNewlines s, m⟩ := by
  have hsf := stripFence_wrap body hne
  simp only [generateSqlAndSummary, hsf, hobj, hs, hm]
  simp [jvalTruthy, hs0, hm0]

/-- Witness for C4 at a concrete fenced response whose SQL field carries an
escaped newline: the result is the unfenced payload with a real newline in
the SQL. -/
theorem c4_witness :
    generateSqlAndSummary (str "```json\n" ++
        str " \x7b\"sql\": \"SELECT *\\\\nFROM FIR\", \"summary\": \"All FIR rows\"\x7d" ++
        str "\n```") =
      Except.ok ⟨str "SELECT *\nFROM FIR", str "All FIR rows"⟩ := by
  have h := c4_fence_strip_and_newline_normalization
    (str " \x7b\"sql\": \"SELECT *\\\\nFROM FIR\", \"summary\": \"All FIR rows\"\x7d")
    [(str "sql", JVal.jstr (str "SELECT *\\nFROM FIR")),
     (str "summary", JVal.jstr (str "All FIR rows"))]
    (str "SELECT *\\nFROM FIR") (str "All FIR rows")
    (by decide) (by decide) (by decide) (by decide) (by decide) (by decide)
  exact h.trans (by decide)
